import Mathlib

/-!
# Verification of `Sudoku_Solver.py`

A shallow embedding of the repository's Sudoku solver
(`find_next_empty_cell`, `is_valid_number`, `solve_sudoku`) and proofs of
the specification's claims about it.

The Python grid is a list of nine lists of nine integers; `EMPTY` is `-1`.
`solve_sudoku` mutates the grid in place and returns either `True` or
(falling off the end of the function) `None`.  We model the mutable grid by
explicit state passing: the solver takes a grid and returns the Python
return value (`Option Bool`, where `some true` is Python `True` and `none`
is Python `None`) together with the final grid.  Recursion depth is made
explicit with a fuel parameter; `solveF fuel g = none` means the fuel ran
out (we prove fuel `numEmpty g + 1` always suffices, so `solve_sudoku`
below, with fuel 82, is the exact semantics of the Python function on every
well-formed grid).
-/

namespace SudokuSolver

/-- A grid: Python's list of rows, each a list of ints. -/
abbrev Grid := List (List Int)

/-- `puzzle[r][c]` (in-range under `wf`; the default is never reached there). -/
def cell (g : Grid) (r c : Nat) : Int := (g.getD r []).getD c 0

/-- `puzzle[r][c] = v`: replace one entry, leaving the rest of the grid. -/
def setCell (g : Grid) (r c : Nat) (v : Int) : Grid :=
  g.set r ((g.getD r []).set c v)

/-- Well-formedness: 9 rows of 9 cells, as every caller of the Python code
assumes. -/
def wf (g : Grid) : Prop := g.length = 9 ∧ ∀ r < 9, (g.getD r []).length = 9

instance : DecidablePred wf := fun g => by unfold wf; infer_instance

/-- All 81 cell positions in row-major order, as the nested
`for r in range(9): for c in range(9)` loops visit them. -/
def allPositions : List (Nat × Nat) :=
  (List.range 81).map fun k => (k / 9, k % 9)

/-- `find_next_empty_cell(puzzle)`: the first cell in row-major order whose
value is `-1`, or `none` when the grid is fully filled (Python's
`(None, None)`). -/
def find_next_empty_cell (g : Grid) : Option (Nat × Nat) :=
  allPositions.find? fun p => cell g p.1 p.2 == -1

/-- `is_valid_number(puzzle, guess, row, col)`: `guess` appears nowhere in
the row list `puzzle[row]`, nowhere in column `col`, and nowhere in the
aligned 3x3 box.  Note the row check is Python's `guess in puzzle[row]`,
which includes the target cell itself. -/
def is_valid_number (g : Grid) (guess : Int) (row col : Nat) : Bool :=
  !((g.getD row []).contains guess) &&
  !((List.range 9).any fun i => cell g i col == guess) &&
  (let row_start_idx := (row / 3) * 3
   let col_start_idx := (col / 3) * 3
   !((List.range' row_start_idx 3).any fun r =>
      (List.range' col_start_idx 3).any fun c => cell g r c == guess))

/-- Python truthiness of the solver's return value: `True` is truthy,
`None` is falsy. -/
def truthy : Option Bool → Bool
  | some b => b
  | none => false

/-- The `for guess in range(1,10)` loop of `solve_sudoku`, for a fixed
target cell `(row, col)`.  `rem` counts the guesses still to try and
`guess` is the next candidate (the loop starts at `rem = 9`, `guess = 1`).
`recur` is the recursive `solve_sudoku` call one fuel level down.  The
result `none` means out of fuel; `some (res, g')` is the Python return
value `res` (`some true` for `True`, `none` for the implicit `None` after
the loop — the source has no `return False` and no backtracking reset)
together with the final grid. -/
def tryG (recur : Grid → Option (Option Bool × Grid)) (row col : Nat) :
    Nat → Int → Grid → Option (Option Bool × Grid)
  | 0, _, g => some (none, g)
  | rem + 1, guess, g =>
    if is_valid_number g guess row col then
      match recur (setCell g row col guess) with
      | none => none
      | some (res, g') =>
        if truthy res then some (some true, g')
        else tryG recur row col rem (guess + 1) g'
    else tryG recur row col rem (guess + 1) g

/-- `solve_sudoku(puzzle)` with explicit fuel bounding the recursion
depth. -/
def solveF : Nat → Grid → Option (Option Bool × Grid)
  | 0, _ => none
  | fuel + 1, g =>
    match find_next_empty_cell g with
    | none => some (some true, g)
    | some (row, col) => tryG (solveF fuel) row col 9 1 g

/-- The set of empty cells of a grid. -/
def emptyCells (g : Grid) : Finset (Nat × Nat) :=
  (Finset.range 9 ×ˢ Finset.range 9).filter fun p => cell g p.1 p.2 = -1

/-- The number of empty cells of a grid (at most 81). -/
def numEmpty (g : Grid) : Nat := (emptyCells g).card

/-- `solve_sudoku(puzzle)`: fuel 82 covers the deepest possible recursion
(81 empty cells plus the base case), so on well-formed grids this is the
exact Python semantics (`solveF_fuel_sufficient` below). -/
def solve_sudoku (g : Grid) : Option (Option Bool × Grid) := solveF 82 g

/-! ## Specification-side predicates -/

/-- All cells lie in the value domain `{1..9} ∪ {-1}`. -/
def domainOk (g : Grid) : Prop :=
  ∀ r < 9, ∀ c < 9, cell g r c = -1 ∨ (1 ≤ cell g r c ∧ cell g r c ≤ 9)

instance : DecidablePred domainOk := fun g => by unfold domainOk; infer_instance

/-- No two distinct cells of the same row, column, or aligned 3x3 box hold
the same non-EMPTY value. -/
def conflictFree (g : Grid) : Prop :=
  ∀ r1 < 9, ∀ c1 < 9, ∀ r2 < 9, ∀ c2 < 9,
    ¬(r1 = r2 ∧ c1 = c2) →
    (r1 = r2 ∨ c1 = c2 ∨ (r1 / 3 = r2 / 3 ∧ c1 / 3 = c2 / 3)) →
    cell g r1 c1 ≠ -1 → cell g r1 c1 ≠ cell g r2 c2

instance : DecidablePred conflictFree := fun _g =>
  @Nat.decidableBallLT 9 _ fun _ _ =>
    @Nat.decidableBallLT 9 _ fun _ _ =>
      @Nat.decidableBallLT 9 _ fun _ _ =>
        @Nat.decidableBallLT 9 _ fun _ _ => inferInstance

/-- The nine values of row `r`. -/
def rowCells (g : Grid) (r : Nat) : List Int :=
  (List.range 9).map fun c => cell g r c

/-- The nine values of column `c`. -/
def colCells (g : Grid) (c : Nat) : List Int :=
  (List.range 9).map fun r => cell g r c

/-- The nine values of the `b`-th aligned 3x3 box (`b < 9`, row-major). -/
def boxCells (g : Grid) (b : Nat) : List Int :=
  (List.range 9).map fun k => cell g (3 * (b / 3) + k / 3) (3 * (b % 3) + k % 3)

/-- Modelled from the spec's words for the validity check (C4): `value`
does not occur at any cell **other than `(row, col)` itself** in row `row`,
column `col`, or the aligned box; the content of `(row, col)` is ignored.
To be compared with `is_valid_number`, which is translated from the
source. -/
def validPerSpec (g : Grid) (v : Int) (row col : Nat) : Bool :=
  allPositions.all fun p =>
    (p.1 == row && p.2 == col) ||
    !(p.1 == row || p.2 == col || (p.1 / 3 == row / 3 && p.2 / 3 == col / 3)) ||
    (cell g p.1 p.2 != v)

/-! ## Concrete grids used as witnesses and failing inputs -/

/-- The all-EMPTY grid (the spec's "no clues" scenario). -/
def emptyGrid : Grid := List.replicate 9 (List.replicate 9 (-1))

/-- A constraint-consistent, provably unsolvable grid: cells `(0,0)` and
`(0,1)` must receive `{1, 2}`, but `1` is blocked in both columns (by the
clues at `(3,0)` and `(6,1)`), so the value `1` cannot be placed anywhere
in row 0. -/
def unsolvableGrid : Grid :=
  [[-1,-1, 3, 4, 5, 6, 7, 8, 9],
   [-1,-1,-1,-1,-1,-1,-1,-1,-1],
   [-1,-1,-1,-1,-1,-1,-1,-1,-1],
   [ 1,-1,-1,-1,-1,-1,-1,-1,-1],
   [-1,-1,-1,-1,-1,-1,-1,-1,-1],
   [-1,-1,-1,-1,-1,-1,-1,-1,-1],
   [-1, 1,-1,-1,-1,-1,-1,-1,-1],
   [-1,-1,-1,-1,-1,-1,-1,-1,-1],
   [-1,-1,-1,-1,-1,-1,-1,-1,-1]]

/-- What `solve_sudoku` actually leaves behind after failing on
`unsolvableGrid`: the tried value `2` is still in cell `(0,0)`. -/
def unsolvableGridAfter : Grid :=
  [[ 2,-1, 3, 4, 5, 6, 7, 8, 9],
   [-1,-1,-1,-1,-1,-1,-1,-1,-1],
   [-1,-1,-1,-1,-1,-1,-1,-1,-1],
   [ 1,-1,-1,-1,-1,-1,-1,-1,-1],
   [-1,-1,-1,-1,-1,-1,-1,-1,-1],
   [-1,-1,-1,-1,-1,-1,-1,-1,-1],
   [-1, 1,-1,-1,-1,-1,-1,-1,-1],
   [-1,-1,-1,-1,-1,-1,-1,-1,-1],
   [-1,-1,-1,-1,-1,-1,-1,-1,-1]]

/-- What `solve_sudoku` actually leaves behind after failing on the
all-EMPTY grid: 39 cells filled, the rest still EMPTY. -/
def emptyGridAfter : Grid :=
  [[ 1, 2, 3, 4, 5, 6, 7, 8, 9],
   [ 4, 5, 6, 7, 8, 9, 3, 2, 1],
   [ 7, 8, 9, 1, 2, 3, 4, 5, 6],
   [ 2, 1, 4, 3, 6, 5, 8, 9, 7],
   [ 3, 6, 7, 2, 9, 8, 1, 4, 5],
   [ 5, 9, 8,-1,-1,-1,-1,-1,-1],
   [-1,-1,-1,-1,-1,-1,-1,-1,-1],
   [-1,-1,-1,-1,-1,-1,-1,-1,-1],
   [-1,-1,-1,-1,-1,-1,-1,-1,-1]]

/-- A fully filled, valid Sudoku grid. -/
def solvedGrid : Grid :=
  [[1, 2, 3, 4, 5, 6, 7, 8, 9],
   [4, 5, 6, 7, 8, 9, 1, 2, 3],
   [7, 8, 9, 1, 2, 3, 4, 5, 6],
   [2, 3, 1, 5, 6, 4, 8, 9, 7],
   [5, 6, 4, 8, 9, 7, 2, 3, 1],
   [8, 9, 7, 2, 3, 1, 5, 6, 4],
   [3, 1, 2, 6, 4, 5, 9, 7, 8],
   [6, 4, 5, 9, 7, 8, 3, 1, 2],
   [9, 7, 8, 3, 1, 2, 6, 4, 5]]

/-- A grid whose only clue is a `5` at `(0,0)`: the input for the C4
counterexample. -/
def lone5Grid : Grid := setCell emptyGrid 0 0 5

/-! ## Basic lemmas about cells, updates and well-formedness -/

theorem rowLen (g : Grid) (hwf : wf g) (r : Nat) (hr : r < 9) :
    (g.getD r []).length = 9 := hwf.2 r hr

theorem cell_setCell (g : Grid) (r c : Nat) (v : Int) (hwf : wf g)
    (hr : r < 9) (hc : c < 9) (r' c' : Nat) :
    cell (setCell g r c v) r' c' =
      if r' = r ∧ c' = c then v else cell g r' c' := by
  have hrlen : r < g.length := by rw [hwf.1]; exact hr
  have hclen : c < (g.getD r []).length := by rw [rowLen g hwf r hr]; exact hc
  by_cases h1 : r' = r
  · subst h1
    have hrow : (setCell g r' c v).getD r' [] = (g.getD r' []).set c v := by
      simp [setCell, List.getD_eq_getElem?_getD, List.getElem?_set_self hrlen]
    by_cases h2 : c' = c
    · subst h2
      simp only [cell, hrow, and_self, if_true]
      rw [List.getD_eq_getElem?_getD, List.getElem?_set_self hclen,
        Option.getD_some]
    · simp only [cell, hrow, List.getD_eq_getElem?_getD,
        List.getElem?_set_ne (fun h => h2 h.symm), h2, and_false, if_false]
  · simp only [cell, setCell, List.getD_eq_getElem?_getD,
      List.getElem?_set_ne (fun h => h1 h.symm), h1, false_and, if_false]

theorem wf_setCell (g : Grid) (r c : Nat) (v : Int) (hwf : wf g) :
    wf (setCell g r c v) := by
  constructor
  · simp [setCell, hwf.1]
  · intro r' hr'
    by_cases h1 : r = r'
    · subst h1
      by_cases hrlen : r < g.length
      · have hlen := rowLen g hwf r hr'
        rw [List.getD_eq_getElem?_getD] at hlen
        simp [setCell, List.getD_eq_getElem?_getD, List.getElem?_set_self hrlen,
          hlen]
      · rw [hwf.1] at hrlen; exact absurd hr' hrlen
    · simpa [setCell, List.getD_eq_getElem?_getD, List.getElem?_set_ne h1]
        using hwf.2 r' hr'

/-! ## Lemmas about `find_next_empty_cell` -/

theorem mem_allPositions (p : Nat × Nat) :
    p ∈ allPositions ↔ p.1 < 9 ∧ p.2 < 9 := by
  obtain ⟨pr, pc⟩ := p
  simp only [allPositions, List.mem_map, List.mem_range, Prod.mk.injEq]
  constructor
  · rintro ⟨k, hk, rfl, rfl⟩
    omega
  · rintro ⟨h1, h2⟩
    exact ⟨pr * 9 + pc, by omega, by omega, by omega⟩

theorem find_eq_some (g : Grid) (r c : Nat)
    (h : find_next_empty_cell g = some (r, c)) :
    r < 9 ∧ c < 9 ∧ cell g r c = -1 := by
  have hmem := List.mem_of_find?_eq_some h
  have hp := List.find?_some h
  rw [mem_allPositions] at hmem
  simp only [beq_iff_eq] at hp
  exact ⟨hmem.1, hmem.2, hp⟩

theorem find_eq_none_iff (g : Grid) :
    find_next_empty_cell g = none ↔ ∀ r < 9, ∀ c < 9, cell g r c ≠ -1 := by
  simp only [find_next_empty_cell, List.find?_eq_none, beq_iff_eq]
  constructor
  · intro h r hr c hc
    exact h (r, c) ((mem_allPositions (r, c)).2 ⟨hr, hc⟩)
  · rintro h ⟨r, c⟩ hmem
    rw [mem_allPositions] at hmem
    exact h r hmem.1 c hmem.2

/-! ## Lemmas about `emptyCells` and `numEmpty` -/

theorem mem_emptyCells (g : Grid) (p : Nat × Nat) :
    p ∈ emptyCells g ↔ p.1 < 9 ∧ p.2 < 9 ∧ cell g p.1 p.2 = -1 := by
  simp [emptyCells, Finset.mem_filter, Finset.mem_product, Finset.mem_range,
    and_assoc]

theorem numEmpty_le_81 (g : Grid) : numEmpty g ≤ 81 := by
  have h : emptyCells g ⊆ Finset.range 9 ×ˢ Finset.range 9 :=
    Finset.filter_subset _ _
  calc numEmpty g ≤ (Finset.range 9 ×ˢ Finset.range 9).card :=
        Finset.card_le_card h
    _ = 81 := by simp

theorem emptyCells_setCell (g : Grid) (r c : Nat) (v : Int) (hwf : wf g)
    (hr : r < 9) (hc : c < 9) (hv : v ≠ -1) :
    emptyCells (setCell g r c v) = (emptyCells g).erase (r, c) := by
  ext ⟨pr, pc⟩
  rw [mem_emptyCells, Finset.mem_erase, mem_emptyCells]
  rw [cell_setCell g r c v hwf hr hc pr pc]
  by_cases h : pr = r ∧ pc = c
  · obtain ⟨rfl, rfl⟩ := h
    simp [hv]
  · have hne : ¬((pr, pc) = (r, c)) := by simpa [Prod.ext_iff] using h
    simp [if_neg h, hne]

theorem numEmpty_setCell_of_empty (g : Grid) (r c : Nat) (v : Int)
    (hwf : wf g) (hr : r < 9) (hc : c < 9) (hv : v ≠ -1)
    (hcell : cell g r c = -1) :
    numEmpty (setCell g r c v) = numEmpty g - 1 ∧ 1 ≤ numEmpty g := by
  have hmem : (r, c) ∈ emptyCells g := (mem_emptyCells g (r, c)).2 ⟨hr, hc, hcell⟩
  constructor
  · rw [numEmpty, emptyCells_setCell g r c v hwf hr hc hv,
      Finset.card_erase_of_mem hmem, numEmpty]
  · exact Finset.card_pos.2 ⟨(r, c), hmem⟩

theorem numEmpty_setCell_of_filled (g : Grid) (r c : Nat) (v : Int)
    (hwf : wf g) (hr : r < 9) (hc : c < 9) (hv : v ≠ -1)
    (hcell : cell g r c ≠ -1) :
    numEmpty (setCell g r c v) = numEmpty g := by
  have hmem : (r, c) ∉ emptyCells g := by
    rw [mem_emptyCells]; intro h; exact hcell h.2.2
  rw [numEmpty, emptyCells_setCell g r c v hwf hr hc hv,
    Finset.erase_eq_of_not_mem hmem, numEmpty]

theorem numEmpty_le_of_preserved (g g' : Grid)
    (h : ∀ r < 9, ∀ c < 9, cell g' r c = -1 → cell g r c = -1) :
    numEmpty g' ≤ numEmpty g := by
  apply Finset.card_le_card
  rintro ⟨pr, pc⟩ hp
  rw [mem_emptyCells] at hp ⊢
  exact ⟨hp.1, hp.2.1, h pr hp.1 pc hp.2.1 hp.2.2⟩

/-! ## Characterization of `is_valid_number` -/

theorem cell_getElem? (g : Grid) (r c : Nat) (hwf : wf g) (hr : r < 9)
    (hc : c < 9) :
    (g.getD r [])[c]? = some (cell g r c) := by
  have hlt : c < (g.getD r []).length := by rw [rowLen g hwf r hr]; exact hc
  rw [cell, List.getD_eq_getElem _ _ hlt, List.getElem?_eq_getElem hlt]

theorem mem_row_iff (g : Grid) (v : Int) (row : Nat) (hwf : wf g)
    (hrow : row < 9) :
    v ∈ g.getD row [] ↔ ∃ c, c < 9 ∧ cell g row c = v := by
  rw [List.mem_iff_getElem?]
  constructor
  · rintro ⟨c, hc⟩
    by_cases hc9 : c < 9
    · rw [cell_getElem? g row c hwf hrow hc9, Option.some.injEq] at hc
      exact ⟨c, hc9, hc⟩
    · rw [List.getElem?_eq_none
        (by rw [rowLen g hwf row hrow]; omega)] at hc
      exact absurd hc (by simp)
  · rintro ⟨c, hc9, hv⟩
    exact ⟨c, by rw [cell_getElem? g row c hwf hrow hc9, hv]⟩

/-- The corrected reading of the validity check: `guess` must be absent
from the whole row, the whole column, and the whole box — the target
cell's own content included. -/
theorem is_valid_number_iff (g : Grid) (v : Int) (row col : Nat)
    (hwf : wf g) (hrow : row < 9) (hcol : col < 9) :
    is_valid_number g v row col = true ↔
      ∀ r < 9, ∀ c < 9,
        (r = row ∨ c = col ∨ (r / 3 = row / 3 ∧ c / 3 = col / 3)) →
        cell g r c ≠ v := by
  have hAiff : ((g.getD row []).contains v = false) ↔
      ∀ c < 9, cell g row c ≠ v := by
    rw [Bool.eq_false_iff, Ne, List.elem_iff, mem_row_iff g v row hwf hrow]
    push_neg
    exact Iff.rfl
  have hBiff : (((List.range 9).any fun i => cell g i col == v) = false) ↔
      ∀ r < 9, cell g r col ≠ v := by
    rw [List.any_eq_false]
    constructor
    · intro h r hr hv
      exact h r (List.mem_range.2 hr) (by rw [beq_iff_eq]; exact hv)
    · intro h x hx hbeq
      rw [beq_iff_eq] at hbeq
      exact h x (List.mem_range.1 hx) hbeq
  have hCiff : (((List.range' (row / 3 * 3) 3).any fun r =>
        (List.range' (col / 3 * 3) 3).any fun c => cell g r c == v) = false) ↔
      ∀ r < 9, ∀ c < 9, r / 3 = row / 3 → c / 3 = col / 3 →
        cell g r c ≠ v := by
    rw [List.any_eq_false]
    constructor
    · intro h r hr c hc hbr hbc hv
      have hrmem : r ∈ List.range' (row / 3 * 3) 3 := by
        rw [List.mem_range']
        exact ⟨r - row / 3 * 3, by omega, by omega⟩
      have h2 := h r hrmem
      rw [Bool.not_eq_true, List.any_eq_false] at h2
      have hcmem : c ∈ List.range' (col / 3 * 3) 3 := by
        rw [List.mem_range']
        exact ⟨c - col / 3 * 3, by omega, by omega⟩
      exact h2 c hcmem (by rw [beq_iff_eq]; exact hv)
    · intro h r hrmem
      rw [Bool.not_eq_true, List.any_eq_false]
      intro c hcmem hbeq
      rw [List.mem_range'] at hrmem hcmem
      obtain ⟨i, hi, rfl⟩ := hrmem
      obtain ⟨j, hj, rfl⟩ := hcmem
      rw [beq_iff_eq] at hbeq
      exact h _ (by omega) _ (by omega) (by omega) (by omega) hbeq
  simp only [is_valid_number, Bool.and_eq_true, Bool.not_eq_true']
  rw [hAiff, hBiff, hCiff]
  constructor
  · rintro ⟨⟨hA, hB⟩, hC⟩ r hr c hc hunit
    rcases hunit with rfl | rfl | ⟨hbr, hbc⟩
    · exact hA c hc
    · exact hB r hr
    · exact hC r hr c hc hbr hbc
  · intro h
    exact ⟨⟨fun c hc => h row hrow c hc (Or.inl rfl),
      fun r hr => h r hr col hcol (Or.inr (Or.inl rfl))⟩,
      fun r hr c hc hbr hbc => h r hr c hc (Or.inr (Or.inr ⟨hbr, hbc⟩))⟩

/-! ## Consistency is preserved by validated writes -/

theorem conflictFree_setCell (g : Grid) (row col : Nat) (v : Int)
    (hwf : wf g) (hrow : row < 9) (hcol : col < 9)
    (hvalid : is_valid_number g v row col = true)
    (hcf : conflictFree g) :
    conflictFree (setCell g row col v) := by
  have habsent := (is_valid_number_iff g v row col hwf hrow hcol).1 hvalid
  intro r1 h1 c1 h2 r2 h3 c2 h4 hne hunit hcell1
  rw [cell_setCell g row col v hwf hrow hcol r1 c1] at hcell1 ⊢
  rw [cell_setCell g row col v hwf hrow hcol r2 c2]
  by_cases e1 : r1 = row ∧ c1 = col
  · rw [if_pos e1] at hcell1 ⊢
    by_cases e2 : r2 = row ∧ c2 = col
    · exact absurd ⟨e1.1.trans e2.1.symm, e1.2.trans e2.2.symm⟩ hne
    · rw [if_neg e2]
      obtain ⟨rfl, rfl⟩ := e1
      intro hv
      exact habsent r2 h3 c2 h4 (by omega) hv.symm
  · rw [if_neg e1] at hcell1 ⊢
    by_cases e2 : r2 = row ∧ c2 = col
    · rw [if_pos e2]
      obtain ⟨rfl, rfl⟩ := e2
      exact habsent r1 h1 c1 h2 (by omega)
    · rw [if_neg e2]
      exact hcf r1 h1 c1 h2 r2 h3 c2 h4 hne hunit hcell1

/-! ## The master invariants of the search -/

/-- Everything a completed call of the solver guarantees, relating the
input grid to the returned value and the final grid. -/
def SolveOut (g : Grid) (res : Option Bool) (g' : Grid) : Prop :=
  wf g' ∧
  (∀ r < 9, ∀ c < 9, cell g r c ≠ -1 → cell g' r c = cell g r c) ∧
  (∀ r < 9, ∀ c < 9, cell g' r c = cell g r c ∨
    (cell g r c = -1 ∧ 1 ≤ cell g' r c ∧ cell g' r c ≤ 9)) ∧
  (res = some true ∨ res = none) ∧
  (res = some true → find_next_empty_cell g' = none) ∧
  (conflictFree g → conflictFree g')

theorem solveF_zero (g : Grid) : solveF 0 g = none := rfl

theorem solveF_succ (fuel : Nat) (g : Grid) :
    solveF (fuel + 1) g =
      match find_next_empty_cell g with
      | none => some (some true, g)
      | some (row, col) => tryG (solveF fuel) row col 9 1 g := rfl

theorem tryG_zero (recur : Grid → Option (Option Bool × Grid))
    (row col : Nat) (guess : Int) (g : Grid) :
    tryG recur row col 0 guess g = some (none, g) := rfl

theorem tryG_succ (recur : Grid → Option (Option Bool × Grid))
    (row col : Nat) (rem : Nat) (guess : Int) (g : Grid) :
    tryG recur row col (rem + 1) guess g =
      if is_valid_number g guess row col then
        match recur (setCell g row col guess) with
        | none => none
        | some (res, g') =>
          if truthy res then some (some true, g')
          else tryG recur row col rem (guess + 1) g'
      else tryG recur row col rem (guess + 1) g := rfl

theorem tryG_master (recur : Grid → Option (Option Bool × Grid))
    (row col : Nat) (hrow : row < 9) (hcol : col < 9)
    (Hrec : ∀ g res g', wf g → recur g = some (res, g') → SolveOut g res g') :
    ∀ (rem : Nat) (guess : Int) (g : Grid) (res : Option Bool) (g' : Grid),
      wf g → 1 ≤ guess → guess + (rem : Int) = 10 →
      tryG recur row col rem guess g = some (res, g') →
      wf g' ∧
      (∀ r < 9, ∀ c < 9, ¬(r = row ∧ c = col) → cell g r c ≠ -1 →
        cell g' r c = cell g r c) ∧
      (∀ r < 9, ∀ c < 9, cell g' r c = cell g r c ∨
        (1 ≤ cell g' r c ∧ cell g' r c ≤ 9 ∧
          (cell g r c = -1 ∨ (r = row ∧ c = col)))) ∧
      (res = some true ∨ res = none) ∧
      (res = some true → find_next_empty_cell g' = none) ∧
      (conflictFree g → conflictFree g') := by
  intro rem
  induction rem with
  | zero =>
    intro guess g res g' hwf _ _ h
    rw [tryG_zero, Option.some.injEq, Prod.mk.injEq] at h
    obtain ⟨h1, h2⟩ := h
    subst h1; subst h2
    exact ⟨hwf, fun r _ c _ _ _ => rfl, fun r _ c _ => Or.inl rfl,
      Or.inr rfl, fun h => Option.noConfusion h, fun h => h⟩
  | succ rem IH =>
    intro guess g res g' hwf hg1 hg2 h
    rw [tryG_succ] at h
    by_cases hval : is_valid_number g guess row col = true
    · rw [if_pos hval] at h
      cases hrec : recur (setCell g row col guess) with
      | none => rw [hrec] at h; exact absurd h (by simp)
      | some p =>
        obtain ⟨res0, g0⟩ := p
        rw [hrec] at h
        have hwfW : wf (setCell g row col guess) := wf_setCell g row col guess hwf
        obtain ⟨H0wf, H0pres, H0chg, H0res, H0full, H0cf⟩ :=
          Hrec _ res0 g0 hwfW hrec
        have hcellW := fun r' c' => cell_setCell g row col guess hwf hrow hcol r' c'
        have hguess9 : guess ≤ 9 := by push_cast at hg2; omega
        have hguessne : guess ≠ -1 := by omega
        rcases H0res with rfl | rfl
        · -- the recursive call succeeded: propagate `True` with its grid
          simp only [truthy, if_true] at h
          rw [Option.some.injEq, Prod.mk.injEq] at h
          obtain ⟨h1, h2⟩ := h
          subst h1; subst h2
          refine ⟨H0wf, ?_, ?_, Or.inl rfl, fun _ => H0full rfl, ?_⟩
          · intro r hr c hc htar hcell
            have hW : cell (setCell g row col guess) r c = cell g r c := by
              rw [hcellW r c, if_neg htar]
            rw [← hW] at hcell ⊢
            exact H0pres r hr c hc hcell
          · intro r hr c hc
            by_cases htar : r = row ∧ c = col
            · have hW : cell (setCell g row col guess) r c = guess := by
                rw [hcellW r c, if_pos htar]
              have := H0pres r hr c hc (by rw [hW]; exact hguessne)
              rw [hW] at this
              exact Or.inr ⟨by omega, by omega, Or.inr htar⟩
            · have hW : cell (setCell g row col guess) r c = cell g r c := by
                rw [hcellW r c, if_neg htar]
              rcases H0chg r hr c hc with heq | ⟨hE, hlo, hhi⟩
              · exact Or.inl (heq.trans hW)
              · exact Or.inr ⟨hlo, hhi, Or.inl (hW ▸ hE)⟩
          · intro hcf
            exact H0cf (conflictFree_setCell g row col guess hwf hrow hcol
              hval hcf)
        · -- the recursive call failed: the loop continues on the
          -- mutated grid, with no reset
          simp only [truthy, Bool.false_eq_true, if_false] at h
          obtain ⟨Hwf, Hpres, Hchg, Hres, Hfull, Hcf⟩ :=
            IH (guess + 1) g0 res g' H0wf (by omega)
              (by push_cast at hg2 ⊢; omega) h
          have hWtar : cell (setCell g row col guess) row col = guess := by
            rw [hcellW row col, if_pos ⟨rfl, rfl⟩]
          refine ⟨Hwf, ?_, ?_, Hres, Hfull, ?_⟩
          · intro r hr c hc htar hcell
            have hW : cell (setCell g row col guess) r c = cell g r c := by
              rw [hcellW r c, if_neg htar]
            have h0 : cell g0 r c = cell g r c := by
              rw [← hW]; exact H0pres r hr c hc (by rw [hW]; exact hcell)
            rw [← h0] at hcell ⊢
            exact Hpres r hr c hc htar hcell
          · intro r hr c hc
            by_cases htar : r = row ∧ c = col
            · obtain ⟨rfl, rfl⟩ := htar
              have h0bound : 1 ≤ cell g0 r c ∧ cell g0 r c ≤ 9 := by
                rcases H0chg r hr c hc with heq | ⟨_, hlo, hhi⟩
                · rw [heq, hWtar]; omega
                · exact ⟨hlo, hhi⟩
              rcases Hchg r hr c hc with heq | ⟨hlo, hhi, _⟩
              · exact Or.inr ⟨by omega, by omega, Or.inr ⟨rfl, rfl⟩⟩
              · exact Or.inr ⟨hlo, hhi, Or.inr ⟨rfl, rfl⟩⟩
            · have hW : cell (setCell g row col guess) r c = cell g r c := by
                rw [hcellW r c, if_neg htar]
              rcases Hchg r hr c hc with heq | ⟨hlo, hhi, hor⟩
              · rcases H0chg r hr c hc with heq0 | ⟨hE0, hlo0, hhi0⟩
                · exact Or.inl (heq.trans (heq0.trans hW))
                · exact Or.inr ⟨by omega, by omega, Or.inl (hW ▸ hE0)⟩
              · rcases hor with hE | htar'
                · rcases H0chg r hr c hc with heq0 | ⟨hE0, hlo0, hhi0⟩
                  · exact Or.inr ⟨hlo, hhi, Or.inl (by rw [← hW, ← heq0, hE])⟩
                  · exact Or.inr ⟨hlo, hhi, Or.inl (hW ▸ hE0)⟩
                · exact absurd htar' htar
          · intro hcf
            exact Hcf (H0cf (conflictFree_setCell g row col guess hwf hrow
              hcol hval hcf))
    · rw [if_neg hval] at h
      exact IH (guess + 1) g res g' hwf (by omega)
        (by push_cast at hg2 ⊢; omega) h

theorem solveF_master :
    ∀ (fuel : Nat) (g : Grid) (res : Option Bool) (g' : Grid),
      wf g → solveF fuel g = some (res, g') → SolveOut g res g' := by
  intro fuel
  induction fuel with
  | zero =>
    intro g res g' _ h
    rw [solveF_zero] at h
    exact absurd h (by simp)
  | succ n IH =>
    intro g res g' hwf h
    rw [solveF_succ] at h
    cases hfind : find_next_empty_cell g with
    | none =>
      rw [hfind] at h
      rw [Option.some.injEq, Prod.mk.injEq] at h
      obtain ⟨h1, h2⟩ := h
      subst h1; subst h2
      exact ⟨hwf, fun r _ c _ _ => rfl, fun r _ c _ => Or.inl rfl,
        Or.inl rfl, fun _ => hfind, fun hc => hc⟩
    | some rc =>
      obtain ⟨row, col⟩ := rc
      rw [hfind] at h
      obtain ⟨hrow, hcol, hcell⟩ := find_eq_some g row col hfind
      obtain ⟨Hwf, Hpres, Hchg, Hres, Hfull, Hcf⟩ :=
        tryG_master (solveF n) row col hrow hcol IH 9 1 g res g' hwf
          (by norm_num) (by norm_num) h
      refine ⟨Hwf, ?_, ?_, Hres, Hfull, Hcf⟩
      · intro r hr c hc hne
        refine Hpres r hr c hc ?_ hne
        rintro ⟨rfl, rfl⟩
        exact hne hcell
      · intro r hr c hc
        rcases Hchg r hr c hc with heq | ⟨hlo, hhi, hor⟩
        · exact Or.inl heq
        · rcases hor with hE | ⟨rfl, rfl⟩
          · exact Or.inr ⟨hE, hlo, hhi⟩
          · exact Or.inr ⟨hcell, hlo, hhi⟩

/-! ## Fuel: sufficiency and irrelevance -/

theorem tryG_total (n : Nat) (row col : Nat) (hrow : row < 9) (hcol : col < 9)
    (Htot : ∀ g, wf g → numEmpty g < n → solveF n g ≠ none) :
    ∀ (rem : Nat) (guess : Int) (g : Grid), wf g → 1 ≤ guess →
      ((cell g row col = -1 ∧ numEmpty g ≤ n) ∨
       (cell g row col ≠ -1 ∧ numEmpty g < n)) →
      tryG (solveF n) row col rem guess g ≠ none := by
  intro rem
  induction rem with
  | zero => intro guess g _ _ _; rw [tryG_zero]; simp
  | succ rem IH =>
    intro guess g hwf hg1 hstate
    rw [tryG_succ]
    by_cases hval : is_valid_number g guess row col = true
    · rw [if_pos hval]
      have hwfW : wf (setCell g row col guess) := wf_setCell g row col guess hwf
      have hguessne : guess ≠ -1 := by omega
      have hWlt : numEmpty (setCell g row col guess) < n := by
        rcases hstate with ⟨hE, hle⟩ | ⟨hF, hlt⟩
        · obtain ⟨heq, hpos⟩ :=
            numEmpty_setCell_of_empty g row col guess hwf hrow hcol hguessne hE
          omega
        · rw [numEmpty_setCell_of_filled g row col guess hwf hrow hcol
            hguessne hF]
          exact hlt
      cases hrec : solveF n (setCell g row col guess) with
      | none => exact absurd hrec (Htot _ hwfW hWlt)
      | some p =>
        obtain ⟨res0, g0⟩ := p
        obtain ⟨H0wf, H0pres, H0chg, _, _, _⟩ :=
          solveF_master n _ res0 g0 hwfW hrec
        have hWtar : cell (setCell g row col guess) row col = guess := by
          rw [cell_setCell g row col guess hwf hrow hcol row col,
            if_pos ⟨rfl, rfl⟩]
        dsimp only
        by_cases htr : truthy res0 = true
        · rw [if_pos htr]; simp
        · rw [if_neg htr]
          apply IH (guess + 1) g0 H0wf (by omega)
          right
          constructor
          · have := H0pres row hrow col hcol (by rw [hWtar]; exact hguessne)
            rw [hWtar] at this
            rw [this]
            omega
          · have hsub : numEmpty g0 ≤ numEmpty (setCell g row col guess) := by
              apply numEmpty_le_of_preserved
              intro r hr c hc hE
              rcases H0chg r hr c hc with heq | ⟨hW, hlo, _⟩
              · rw [← heq]; exact hE
              · exact hW
            omega
    · rw [if_neg hval]
      exact IH (guess + 1) g hwf (by omega) hstate

theorem solveF_total :
    ∀ (n : Nat) (g : Grid), wf g → numEmpty g < n → solveF n g ≠ none := by
  intro n
  induction n with
  | zero => intro g _ h; omega
  | succ n IH =>
    intro g hwf hlt
    rw [solveF_succ]
    cases hfind : find_next_empty_cell g with
    | none => simp
    | some rc =>
      obtain ⟨row, col⟩ := rc
      obtain ⟨hrow, hcol, hcell⟩ := find_eq_some g row col hfind
      exact tryG_total n row col hrow hcol IH 9 1 g hwf (by norm_num)
        (Or.inl ⟨hcell, by omega⟩)

theorem tryG_mono (recur recur' : Grid → Option (Option Bool × Grid))
    (row col : Nat)
    (H : ∀ g x, recur g = some x → recur' g = some x) :
    ∀ (rem : Nat) (guess : Int) (g : Grid) (x : Option Bool × Grid),
      tryG recur row col rem guess g = some x →
      tryG recur' row col rem guess g = some x := by
  intro rem
  induction rem with
  | zero => intro guess g x h; rw [tryG_zero] at h ⊢; exact h
  | succ rem IH =>
    intro guess g x h
    rw [tryG_succ] at h ⊢
    by_cases hval : is_valid_number g guess row col = true
    · rw [if_pos hval] at h ⊢
      cases hrec : recur (setCell g row col guess) with
      | none => rw [hrec] at h; exact absurd h (by simp)
      | some p =>
        rw [hrec] at h
        rw [H _ p hrec]
        obtain ⟨res0, g0⟩ := p
        dsimp only at h ⊢
        by_cases htr : truthy res0 = true
        · rw [if_pos htr] at h ⊢; exact h
        · rw [if_neg htr] at h ⊢; exact IH _ _ _ h
    · rw [if_neg hval] at h ⊢; exact IH _ _ _ h

theorem solveF_mono :
    ∀ (fuel : Nat) (g : Grid) (x : Option Bool × Grid),
      solveF fuel g = some x → solveF (fuel + 1) g = some x := by
  intro fuel
  induction fuel with
  | zero => intro g x h; rw [solveF_zero] at h; exact absurd h (by simp)
  | succ n IH =>
    intro g x h
    rw [solveF_succ] at h ⊢
    cases hfind : find_next_empty_cell g with
    | none =>
      rw [hfind] at h
      exact h
    | some rc =>
      obtain ⟨row, col⟩ := rc
      rw [hfind] at h
      dsimp only at h ⊢
      exact tryG_mono _ _ row col IH 9 1 g x h

theorem solveF_add (fuel k : Nat) :
    ∀ (g : Grid) (x : Option Bool × Grid),
      solveF fuel g = some x → solveF (fuel + k) g = some x := by
  induction k with
  | zero => exact fun g x h => h
  | succ k IH => exact fun g x h => solveF_mono (fuel + k) g x (IH g x h)

theorem solveF_le (fuel fuel' : Nat) (h : fuel ≤ fuel') (g : Grid)
    (x : Option Bool × Grid) (hx : solveF fuel g = some x) :
    solveF fuel' g = some x := by
  obtain ⟨k, rfl⟩ := Nat.exists_eq_add_of_le h
  exact solveF_add fuel k g x hx

/-- Fuel `numEmpty g + 1` always suffices, and any larger fuel — in
particular the 82 used by `solve_sudoku` — computes the same result. -/
theorem solveF_fuel_sufficient (g : Grid) (hwf : wf g) :
    solveF (numEmpty g + 1) g ≠ none ∧
    ∀ fuel, numEmpty g + 1 ≤ fuel →
      solveF fuel g = solveF (numEmpty g + 1) g := by
  have htot : solveF (numEmpty g + 1) g ≠ none :=
    solveF_total (numEmpty g + 1) g hwf (by omega)
  refine ⟨htot, fun fuel hfuel => ?_⟩
  cases hx : solveF (numEmpty g + 1) g with
  | none => exact absurd hx htot
  | some x => exact solveF_le (numEmpty g + 1) fuel hfuel g x hx

theorem solve_sudoku_eq (g : Grid) (hwf : wf g) :
    solve_sudoku g = solveF (numEmpty g + 1) g := by
  have h81 := numEmpty_le_81 g
  exact (solveF_fuel_sufficient g hwf).2 82 (by omega)

theorem solve_sudoku_ne_none (g : Grid) (hwf : wf g) :
    solve_sudoku g ≠ none := by
  rw [solve_sudoku_eq g hwf]
  exact (solveF_fuel_sufficient g hwf).1

theorem solve_sudoku_master (g : Grid) (res : Option Bool) (g' : Grid)
    (hwf : wf g) (h : solve_sudoku g = some (res, g')) :
    SolveOut g res g' := solveF_master 82 g res g' hwf h

/-! ## Counting: a full, conflict-free unit holds 1..9 exactly once -/

theorem count_eq_one_of_unit (l : List Int) (hlen : l.length = 9)
    (hnodup : l.Nodup) (hdom : ∀ x ∈ l, 1 ≤ x ∧ x ≤ 9) :
    ∀ v : Int, 1 ≤ v → v ≤ 9 → l.count v = 1 := by
  have hsub : l.toFinset ⊆ Finset.Icc (1 : Int) 9 := by
    intro x hx
    rw [List.mem_toFinset] at hx
    rw [Finset.mem_Icc]
    exact hdom x hx
  have hcard : l.toFinset.card = 9 := by
    rw [List.toFinset_card_of_nodup hnodup, hlen]
  have hicc : (Finset.Icc (1 : Int) 9).card = 9 := by
    rw [Int.card_Icc]
    rfl
  have heq : l.toFinset = Finset.Icc (1 : Int) 9 :=
    Finset.eq_of_subset_of_card_le hsub (by rw [hcard, hicc])
  intro v h1 h9
  have hv : v ∈ l := by
    rw [← List.mem_toFinset, heq, Finset.mem_Icc]
    exact ⟨h1, h9⟩
  have hle := List.nodup_iff_count_le_one.1 hnodup v
  have hge := List.count_pos_iff.2 hv
  omega

theorem rowCells_count (g : Grid) (hdom : domainOk g) (hcf : conflictFree g)
    (hfull : ∀ r < 9, ∀ c < 9, cell g r c ≠ -1) (r : Nat) (hr : r < 9)
    (v : Int) (h1 : 1 ≤ v) (h9 : v ≤ 9) :
    (rowCells g r).count v = 1 := by
  refine count_eq_one_of_unit _ (by simp [rowCells]) ?_ ?_ v h1 h9
  · refine List.Nodup.map_on ?_ (List.nodup_range 9)
    intro x hx y hy heq
    rw [List.mem_range] at hx hy
    by_contra hxy
    exact hcf r hr x hx r hr y hy (fun h => hxy h.2) (Or.inl rfl)
      (hfull r hr x hx) heq
  · intro x hx
    rw [rowCells, List.mem_map] at hx
    obtain ⟨c, hc, rfl⟩ := hx
    rw [List.mem_range] at hc
    rcases hdom r hr c hc with hE | hb
    · exact absurd hE (hfull r hr c hc)
    · exact hb

theorem colCells_count (g : Grid) (hdom : domainOk g) (hcf : conflictFree g)
    (hfull : ∀ r < 9, ∀ c < 9, cell g r c ≠ -1) (c : Nat) (hc : c < 9)
    (v : Int) (h1 : 1 ≤ v) (h9 : v ≤ 9) :
    (colCells g c).count v = 1 := by
  refine count_eq_one_of_unit _ (by simp [colCells]) ?_ ?_ v h1 h9
  · refine List.Nodup.map_on ?_ (List.nodup_range 9)
    intro x hx y hy heq
    rw [List.mem_range] at hx hy
    by_contra hxy
    exact hcf x hx c hc y hy c hc (fun h => hxy h.1) (Or.inr (Or.inl rfl))
      (hfull x hx c hc) heq
  · intro x hx
    rw [colCells, List.mem_map] at hx
    obtain ⟨r, hr, rfl⟩ := hx
    rw [List.mem_range] at hr
    rcases hdom r hr c hc with hE | hb
    · exact absurd hE (hfull r hr c hc)
    · exact hb

theorem boxCells_count (g : Grid) (hdom : domainOk g) (hcf : conflictFree g)
    (hfull : ∀ r < 9, ∀ c < 9, cell g r c ≠ -1) (b : Nat) (hb : b < 9)
    (v : Int) (h1 : 1 ≤ v) (h9 : v ≤ 9) :
    (boxCells g b).count v = 1 := by
  refine count_eq_one_of_unit _ (by simp [boxCells]) ?_ ?_ v h1 h9
  · refine List.Nodup.map_on ?_ (List.nodup_range 9)
    intro x hx y hy heq
    rw [List.mem_range] at hx hy
    by_contra hxy
    refine hcf (3 * (b / 3) + x / 3) (by omega) (3 * (b % 3) + x % 3)
      (by omega) (3 * (b / 3) + y / 3) (by omega) (3 * (b % 3) + y % 3)
      (by omega) (by omega) (Or.inr (Or.inr ⟨by omega, by omega⟩))
      (hfull _ (by omega) _ (by omega)) heq
  · intro x hx
    rw [boxCells, List.mem_map] at hx
    obtain ⟨k, hk, rfl⟩ := hx
    rw [List.mem_range] at hk
    rcases hdom (3 * (b / 3) + k / 3) (by omega) (3 * (b % 3) + k % 3)
        (by omega) with hE | hbnd
    · exact absurd hE (hfull _ (by omega) _ (by omega))
    · exact hbnd

/-! ## The claims -/

/-- Claim C1: for every well-formed input grid with cells in
`{1..9} ∪ {-1}` and free of pre-existing constraint violations, if
`solve_sudoku` returns `True` then the resulting grid is fully filled and
every row, every column, and every aligned 3x3 box contains each of the
values 1 through 9 exactly once. -/
theorem C1_solve_true_solved (g g' : Grid) (hwf : wf g) (hdom : domainOk g)
    (hcf : conflictFree g) (h : solve_sudoku g = some (some true, g')) :
    (∀ r < 9, ∀ c < 9, cell g' r c ≠ -1) ∧
    (∀ r < 9, ∀ v : Int, 1 ≤ v → v ≤ 9 → (rowCells g' r).count v = 1) ∧
    (∀ c < 9, ∀ v : Int, 1 ≤ v → v ≤ 9 → (colCells g' c).count v = 1) ∧
    (∀ b < 9, ∀ v : Int, 1 ≤ v → v ≤ 9 → (boxCells g' b).count v = 1) := by
  obtain ⟨_, _, Hchg, _, Hfull, Hcf⟩ :=
    solve_sudoku_master g (some true) g' hwf h
  have hfull : ∀ r < 9, ∀ c < 9, cell g' r c ≠ -1 :=
    (find_eq_none_iff g').1 (Hfull rfl)
  have hdom' : domainOk g' := by
    intro r hr c hc
    rcases Hchg r hr c hc with heq | ⟨_, hlo, hhi⟩
    · rw [heq]; exact hdom r hr c hc
    · exact Or.inr ⟨hlo, hhi⟩
  have hcf' : conflictFree g' := Hcf hcf
  exact ⟨hfull,
    fun r hr v h1 h9 => rowCells_count g' hdom' hcf' hfull r hr v h1 h9,
    fun c hc v h1 h9 => colCells_count g' hdom' hcf' hfull c hc v h1 h9,
    fun b hb v h1 h9 => boxCells_count g' hdom' hcf' hfull b hb v h1 h9⟩

set_option maxRecDepth 40000 in
/-- Witness for C1 at a concrete input: the already-solved grid satisfies
the hypotheses, and the theorem yields e.g. that value 5 occurs exactly
once in row 0 of the output. -/
theorem C1_solve_true_solved_witness :
    wf solvedGrid ∧ domainOk solvedGrid ∧ conflictFree solvedGrid ∧
    solve_sudoku solvedGrid = some (some true, solvedGrid) ∧
    (rowCells solvedGrid 0).count 5 = 1 := by
  have hwf : wf solvedGrid := by decide
  have hdom : domainOk solvedGrid := by decide
  have hcf : conflictFree solvedGrid := by decide
  have hrun : solve_sudoku solvedGrid = some (some true, solvedGrid) := by
    decide
  exact ⟨hwf, hdom, hcf, hrun,
    (C1_solve_true_solved solvedGrid solvedGrid hwf hdom hcf hrun).2.1 0
      (by norm_num) 5 (by norm_num) (by norm_num)⟩

set_option maxRecDepth 40000 in
/-- Claim C2 (refuted by this run — the claim says a failed solve restores
every cell it wrote to EMPTY): on the constraint-consistent, unsolvable
grid `unsolvableGrid`, the failed call returns with cell `(0,0)` still
holding the tried value `2`; the source has no reset of the cell on
recursive failure. -/
theorem C2_failure_leaves_mutation :
    wf unsolvableGrid ∧ conflictFree unsolvableGrid ∧
    solve_sudoku unsolvableGrid = some (none, unsolvableGridAfter) ∧
    cell unsolvableGrid 0 0 = -1 ∧ cell unsolvableGridAfter 0 0 = 2 := by
  decide

set_option maxRecDepth 40000 in
/-- Claim C3 (refuted by this run — the claim says exhaustion returns the
boolean `false`): on exhaustion `solve_sudoku` falls off the end of the
function and returns Python `None` (modelled `none`), not the boolean
`False` (modelled `some false`). -/
theorem C3_failure_returns_none :
    (solve_sudoku unsolvableGrid).map Prod.fst = some none ∧
    (solve_sudoku unsolvableGrid).map Prod.fst ≠ some (some false) := by
  decide

/-- Claim C4, counterexample: the claim says the current content of the
target cell is ignored by `is_valid_number`.  On the grid whose only clue
is `5` at `(0,0)`, the value 5 occurs at no cell other than `(0,0)` itself
(`validPerSpec`), yet `is_valid_number` returns `false` — the Python row
check `guess in puzzle[row]` reads the target cell. -/
theorem C4_target_cell_read_counterexample :
    validPerSpec lone5Grid 5 0 0 = true ∧
    is_valid_number lone5Grid 5 0 0 = false := by decide

/-- Claim C4 as amended: `is_valid_number(grid, value, row, col)` returns
`true` iff `value` does not occur at any cell — the target cell `(row,col)`
itself included — in row `row`, in column `col`, or in the aligned 3x3 box
containing `(row, col)`. -/
theorem C4_validity_check_amended (g : Grid) (v : Int) (row col : Nat)
    (hwf : wf g) (hrow : row < 9) (hcol : col < 9)
    (_h1 : 1 ≤ v) (_h9 : v ≤ 9) :
    is_valid_number g v row col = true ↔
      ∀ r < 9, ∀ c < 9,
        (r = row ∨ c = col ∨ (r / 3 = row / 3 ∧ c / 3 = col / 3)) →
        cell g r c ≠ v :=
  is_valid_number_iff g v row col hwf hrow hcol

/-- Witness for the amended C4 at a concrete input: on the all-EMPTY grid,
placing 5 at `(0,0)` is accepted. -/
theorem C4_validity_check_amended_witness :
    wf emptyGrid ∧ (0 : Nat) < 9 ∧ (1 : Int) ≤ 5 ∧ (5 : Int) ≤ 9 ∧
    is_valid_number emptyGrid 5 0 0 = true := by
  have hwf : wf emptyGrid := by decide
  refine ⟨hwf, by norm_num, by norm_num, by norm_num, ?_⟩
  exact (C4_validity_check_amended emptyGrid 5 0 0 hwf (by norm_num)
    (by norm_num) (by norm_num) (by norm_num)).mpr (by decide)

set_option maxRecDepth 100000 in
/-- Claim C5 (refuted by this run — the claim says the all-EMPTY grid must
solve): on the grid with no clues the search, crippled by the missing
backtracking reset, exhausts its candidates and returns `None`, leaving the
grid partially filled (cell `(8,8)` among others is still EMPTY). -/
theorem C5_empty_grid_fails :
    solve_sudoku emptyGrid = some (none, emptyGridAfter) ∧
    cell emptyGridAfter 5 3 = -1 ∧ cell emptyGridAfter 8 8 = -1 := by
  decide

/-- Claim C6: every cell that is non-EMPTY in the input still holds its
original value after `solve_sudoku` returns, on success and on failure
alike: the solver never overwrites a given clue. -/
theorem C6_clues_preserved (g : Grid) (res : Option Bool) (g' : Grid)
    (hwf : wf g) (h : solve_sudoku g = some (res, g'))
    (r : Nat) (hr : r < 9) (c : Nat) (hc : c < 9)
    (hne : cell g r c ≠ -1) :
    cell g' r c = cell g r c :=
  (solve_sudoku_master g res g' hwf h).2.1 r hr c hc hne

set_option maxRecDepth 40000 in
/-- Witness for C6 at a concrete input: the clue `3` at `(0,2)` of the
unsolvable grid survives the failed solve. -/
theorem C6_clues_preserved_witness :
    wf unsolvableGrid ∧
    solve_sudoku unsolvableGrid = some (none, unsolvableGridAfter) ∧
    cell unsolvableGrid 0 2 ≠ -1 ∧
    cell unsolvableGridAfter 0 2 = cell unsolvableGrid 0 2 := by
  have hwf : wf unsolvableGrid := by decide
  have hrun : solve_sudoku unsolvableGrid = some (none, unsolvableGridAfter) := by
    decide
  exact ⟨hwf, hrun, by decide,
    C6_clues_preserved unsolvableGrid none unsolvableGridAfter hwf hrun 0
      (by norm_num) 2 (by norm_num) (by decide)⟩

/-- Claim C7: provided the grid is constraint-consistent, consistency is an
invariant of the search: each placement is validated by `is_valid_number`
before being written, and a validated write preserves consistency — hence
so does every completed call of the solver. -/
theorem C7_consistency_invariant :
    (∀ (g : Grid) (v : Int) (row col : Nat), wf g → row < 9 → col < 9 →
      conflictFree g → is_valid_number g v row col = true →
      conflictFree (setCell g row col v)) ∧
    (∀ (g : Grid) (res : Option Bool) (g' : Grid), wf g → conflictFree g →
      solve_sudoku g = some (res, g') → conflictFree g') := by
  constructor
  · intro g v row col hwf hrow hcol hcf hval
    exact conflictFree_setCell g row col v hwf hrow hcol hval hcf
  · intro g res g' hwf hcf h
    exact (solve_sudoku_master g res g' hwf h).2.2.2.2.2 hcf

set_option maxRecDepth 40000 in
/-- Witness for C7 at concrete inputs: writing the validated 5 at `(0,0)`
of the empty grid keeps it conflict-free, and the grid left by the failed
solve of `unsolvableGrid` is conflict-free. -/
theorem C7_consistency_invariant_witness :
    wf emptyGrid ∧ conflictFree emptyGrid ∧
    is_valid_number emptyGrid 5 0 0 = true ∧
    conflictFree (setCell emptyGrid 0 0 5) ∧
    conflictFree unsolvableGridAfter := by
  have hwf : wf emptyGrid := by decide
  have hcf : conflictFree emptyGrid := by decide
  have hval : is_valid_number emptyGrid 5 0 0 = true := by decide
  exact ⟨hwf, hcf, hval,
    C7_consistency_invariant.1 emptyGrid 5 0 0 hwf (by norm_num)
      (by norm_num) hcf hval,
    C7_consistency_invariant.2 unsolvableGrid none unsolvableGridAfter
      (by decide) (by decide) (by decide)⟩

/-- Claim C8: on a fully filled input grid satisfying the Sudoku
constraints, `solve_sudoku` returns `True` immediately with zero mutation
of the grid. -/
theorem C8_solved_grid_identity (g : Grid) (_hwf : wf g)
    (hfull : ∀ r < 9, ∀ c < 9, cell g r c ≠ -1)
    (_hcf : conflictFree g) :
    solve_sudoku g = some (some true, g) := by
  have hfind : find_next_empty_cell g = none := (find_eq_none_iff g).2 hfull
  show solveF 82 g = some (some true, g)
  rw [show (82 : Nat) = 81 + 1 from rfl, solveF_succ, hfind]

set_option maxRecDepth 40000 in
/-- Witness for C8 at a concrete input: the solved grid. -/
theorem C8_solved_grid_identity_witness :
    wf solvedGrid ∧ (∀ r < 9, ∀ c < 9, cell solvedGrid r c ≠ -1) ∧
    conflictFree solvedGrid ∧
    solve_sudoku solvedGrid = some (some true, solvedGrid) := by
  have hwf : wf solvedGrid := by decide
  have hfull : ∀ r < 9, ∀ c < 9, cell solvedGrid r c ≠ -1 := by decide
  have hcf : conflictFree solvedGrid := by decide
  exact ⟨hwf, hfull, hcf, C8_solved_grid_identity solvedGrid hwf hfull hcf⟩

/-- Claim C9: on every well-formed grid `solve_sudoku` terminates, with
recursion depth bounded by the number of EMPTY cells (at most 81): fuel
`numEmpty g + 1` never runs out, and any larger fuel computes the same
result. -/
theorem C9_termination_depth_bound (g : Grid) (hwf : wf g) :
    numEmpty g ≤ 81 ∧
    solveF (numEmpty g + 1) g ≠ none ∧
    ∀ fuel, numEmpty g + 1 ≤ fuel →
      solveF fuel g = solveF (numEmpty g + 1) g :=
  ⟨numEmpty_le_81 g, (solveF_fuel_sufficient g hwf).1,
    (solveF_fuel_sufficient g hwf).2⟩

set_option maxRecDepth 40000 in
/-- Witness for C9 at a concrete input: the unsolvable grid (72 empties)
needs no more than 73 levels, and fuel 82 gives the same result. -/
theorem C9_termination_depth_bound_witness :
    wf unsolvableGrid ∧
    numEmpty unsolvableGrid ≤ 81 ∧
    solveF (numEmpty unsolvableGrid + 1) unsolvableGrid ≠ none ∧
    solveF 82 unsolvableGrid =
      solveF (numEmpty unsolvableGrid + 1) unsolvableGrid := by
  have hwf : wf unsolvableGrid := by decide
  obtain ⟨h1, h2, h3⟩ := C9_termination_depth_bound unsolvableGrid hwf
  exact ⟨hwf, h1, h2, h3 82 (by decide)⟩

/-- Claim C10: for every well-formed input grid with cells in
`{1..9} ∪ {-1}`, the domain invariant survives `solve_sudoku`, and every
changed cell was EMPTY in the input and now holds a value in 1..9. -/
theorem C10_domain_invariant (g : Grid) (res : Option Bool) (g' : Grid)
    (hwf : wf g) (hdom : domainOk g)
    (h : solve_sudoku g = some (res, g')) :
    domainOk g' ∧
    (∀ r < 9, ∀ c < 9, cell g' r c ≠ cell g r c →
      cell g r c = -1 ∧ 1 ≤ cell g' r c ∧ cell g' r c ≤ 9) := by
  obtain ⟨_, _, Hchg, _, _, _⟩ := solve_sudoku_master g res g' hwf h
  constructor
  · intro r hr c hc
    rcases Hchg r hr c hc with heq | ⟨_, hlo, hhi⟩
    · rw [heq]; exact hdom r hr c hc
    · exact Or.inr ⟨hlo, hhi⟩
  · intro r hr c hc hne
    rcases Hchg r hr c hc with heq | ⟨hE, hlo, hhi⟩
    · exact absurd heq hne
    · exact ⟨hE, hlo, hhi⟩

set_option maxRecDepth 40000 in
/-- Witness for C10 at a concrete input: the failed solve of the
unsolvable grid keeps the domain invariant, and the one changed cell
`(0,0)` was EMPTY and now holds 2. -/
theorem C10_domain_invariant_witness :
    wf unsolvableGrid ∧ domainOk unsolvableGrid ∧
    solve_sudoku unsolvableGrid = some (none, unsolvableGridAfter) ∧
    domainOk unsolvableGridAfter ∧
    (cell unsolvableGrid 0 0 = -1 ∧ 1 ≤ cell unsolvableGridAfter 0 0 ∧
      cell unsolvableGridAfter 0 0 ≤ 9) := by
  have hwf : wf unsolvableGrid := by decide
  have hdom : domainOk unsolvableGrid := by decide
  have hrun : solve_sudoku unsolvableGrid = some (none, unsolvableGridAfter) := by
    decide
  obtain ⟨hd, hch⟩ :=
    C10_domain_invariant unsolvableGrid none unsolvableGridAfter hwf hdom hrun
  exact ⟨hwf, hdom, hrun, hd,
    hch 0 (by norm_num) 0 (by norm_num) (by decide)⟩

end SudokuSolver
